import Mathlib

/-!
# Verification of the IB Economics Interactive Tutor grading core

A shallow embedding, in Lean 4, of the assessment and progress logic of the
single-file React application (the grading heuristic `scoreShortAnswer`, the
remote-grading adapter `openAIGrade`, the section-test / final-exam grading
loops, the recommendation generator `generateRecommendations`, and the progress
reducers `markLessonComplete` / `onSectionTestSubmit`), together with theorems
settling the specification claims about them.

Modelling conventions:
* JavaScript numbers appearing as scores are modelled as `Int` (all values
  produced by the code are integers); intermediate divisions use `Rat`, which is
  exact for the small ratios the code computes.
* `Math.round` rounds half-up (towards plus infinity), i.e. `⌊x + 1/2⌋`.
* JavaScript objects used as dictionaries (`answers`, `lessonsCompleted`,
  `sectionScores`, `perQuestion`) are modelled as functions into `Option`,
  a missing key being `none`; object spread with a key override is pointwise
  functional update.
* The `answers` object stores the selected option index (a number) for
  multiple-choice questions and the typed text for short-answer questions; it
  is modelled as the two functions `aChoice` and `aText`, split by the type of
  the stored value.
* `toLowerCase` is modelled character-wise as `lowerList`, mapping
  `Char.toLower` over the characters (the embedded data is ASCII, where the
  two agree).
* The network call inside `openAIGrade` and the regex score extraction
  `content.match(/(\d+\.?\d*)\s*\/\s*(\d+)/)` are modelled by their outcome
  (`FetchResult`): a failed request, or a response together with the extracted
  `(got, denom)` pair when the pattern occurs in the content.  The first regex
  group is a non-negative decimal literal (hence a non-negative rational) and
  the second a digit string (hence a natural number).
* Display-only fields of questions (`prompt`, `options`, rubric `guidance`) are
  omitted from the embedding: the grading code never reads them.
-/

namespace IbEcon

/-- JavaScript `Math.round`: round half-up, `⌊x + 1/2⌋`. -/
def jsRound (q : ℚ) : ℤ := ⌊q + 1/2⌋

/-- `s.toLowerCase()`, at the character level: the characters of `s`,
lowercased. -/
def lowerList (s : String) : List Char := s.toList.map Char.toLower

/-- Is `c` a lowercase ASCII letter (the character class `[a-z]`)? -/
def isLowerAlpha (c : Char) : Bool := decide ('a' ≤ c) && decide (c ≤ 'z')

/-- Accumulator version of tokenisation: split a character list into the
maximal runs of lowercase letters, dropping separators; `cur` holds the
(reversed) run currently being read. -/
def tokenizeAux : List Char → List Char → List (List Char)
  | [], cur => if cur.isEmpty then [] else [cur.reverse]
  | c :: cs, cur =>
    if isLowerAlpha c then tokenizeAux cs (c :: cur)
    else if cur.isEmpty then tokenizeAux cs []
    else cur.reverse :: tokenizeAux cs []

/-- `k.toLowerCase().split(/[^a-z]+/).filter(Boolean)`: the maximal runs of
lowercase letters of the lowercased criterion, empty pieces discarded. -/
def tokenize (k : String) : List (List Char) := tokenizeAux (lowerList k) []

/-- Does the character list start with `p`? -/
def startsWithSub : List Char → List Char → Bool
  | [], _ => true
  | _ :: _, [] => false
  | a :: as, b :: bs => a = b && startsWithSub as bs

/-- `t.includes(p)` on character lists: does `p` occur contiguously in `t`? -/
def containsSub (p : List Char) : List Char → Bool
  | [] => p.isEmpty
  | c :: rest => startsWithSub p (c :: rest) || containsSub p rest

/-- The rubric value handed to the grader: `{ criteria, maxScore }`. -/
structure Rubric where
  criteria : List String
  maxScore : Int
deriving DecidableEq

/-- A criterion is "hit" when some of its tokens occurs in the lowercased
answer text `t`: `parts.some(p => t.includes(p))`. -/
def criterionHit (t : List Char) (k : String) : Bool :=
  (tokenize k).any (fun p => containsSub p t)

/-- `scoreShortAnswer(text, rubric)` from the source: count the hit criteria,
normalise by `criteria.length || 3`, cap the ratio at 1, and round the ratio
times `rubric?.maxScore || 3`.  An empty (falsy) text scores 0 immediately. -/
def scoreShortAnswer (text : String) (rubric : Option Rubric) : Int :=
  if text = "" then 0
  else
    let t := lowerList text
    let keywords := ((rubric.map Rubric.criteria).getD [])
    let score : Int := ((keywords.filter (fun k => criterionHit t k)).length : Int)
    let mx : Int := if keywords.length = 0 then 3 else (keywords.length : Int)
    let ratio : ℚ := min ((score : ℚ) / (mx : ℚ)) 1
    let maxScore : Int :=
      if ((rubric.map Rubric.maxScore).getD 0) = 0 then 3
      else ((rubric.map Rubric.maxScore).getD 0)
    jsRound (ratio * (maxScore : ℚ))

/-- Outcome of the remote call made by `openAIGrade`: the request either fails
(rejected fetch / JSON error), or yields a response whose content is `content`
and whose regex score extraction yields `parsed` — `some (got, denom)` when the
pattern `(\d+\.?\d*)\s*\/\s*(\d+)` occurs (first group a non-negative decimal,
second group a natural number), `none` otherwise. -/
inductive FetchResult
  | fail
  | ok (parsed : Option (ℚ × ℕ)) (content : String)

/-- `openAIGrade({prompt, answer, rubric, apiKey})`: heuristic score with fixed
feedback when no key is present; on a successful call, rescale an extracted
`got/denom` onto `[0, max]` (`max = rubric?.maxScore || 3`, and a zero `denom`
falls back to `max`), otherwise keep the heuristic score; on any thrown
failure, heuristic score with the fixed network-error feedback. -/
def openAIGrade (hasKey : Bool) (res : FetchResult) (answer : String)
    (rubric : Option Rubric) : Int × String :=
  if !hasKey then
    (scoreShortAnswer answer rubric, "Heuristic feedback based on rubric coverage.")
  else
    match res with
    | .fail => (scoreShortAnswer answer rubric, "Network error: used heuristic grading.")
    | .ok parsed content =>
      let mx : Int :=
        if ((rubric.map Rubric.maxScore).getD 0) = 0 then 3
        else ((rubric.map Rubric.maxScore).getD 0)
      let score : Int :=
        match parsed with
        | none => scoreShortAnswer answer rubric
        | some (got, denom) =>
          let d : ℚ := if (denom : ℚ) = 0 then (mx : ℚ) else (denom : ℚ)
          min (jsRound (got / d * (mx : ℚ))) mx
      (score, if content = "" then "AI feedback provided." else content)

/-- Question kind: `"mcq"` or `"short"`. -/
inductive QType
  | mcq
  | short
deriving DecidableEq

/-- A test / exam question as the grading code reads it: its id, kind, correct
option index (`answer`, present on MCQs), rubric criteria (present on short
answers) and `maxScore`.  Display-only fields (`prompt`, `options`, rubric
`guidance`) are omitted: grading never reads them. -/
structure Question where
  id : String
  type : QType
  answer : Option ℕ
  rubric : Option (List String)
  maxScore : Int
deriving DecidableEq

/-- The environment of one grading run: whether an API key is configured and,
per question id, the outcome of the remote call that `openAIGrade` would make
for that question. -/
structure GradeCtx where
  hasKey : Bool
  fetch : String → FetchResult

/-- Points awarded to one question by the grading loops (`SectionTest.grade`
and `FinalExam.grade` share this logic verbatim).  MCQ: `maxScore` iff
`answers[q.id] === q.answer` (strict equality; an absent answer is `none`).
Short answer: the score component of `openAIGrade` on `answers[q.id] || ""`
with rubric `{ criteria: q.rubric?.criteria || [], maxScore: q.maxScore }`. -/
def questionPoints (ctx : GradeCtx) (aChoice : String → Option ℕ)
    (aText : String → Option String) (q : Question) : Int :=
  match q.type with
  | .mcq => if aChoice q.id = q.answer then q.maxScore else 0
  | .short =>
    (openAIGrade ctx.hasKey (ctx.fetch q.id) ((aText q.id).getD "")
      (some ⟨q.rubric.getD [], q.maxScore⟩)).1

/-- `max += q.maxScore` accumulated over the question list. -/
def sumMax (qs : List Question) : Int := qs.foldl (fun s q => s + q.maxScore) 0

/-- `points += awarded` accumulated over the question list. -/
def sumPoints (ctx : GradeCtx) (aChoice : String → Option ℕ)
    (aText : String → Option String) (qs : List Question) : Int :=
  qs.foldl (fun s q => s + questionPoints ctx aChoice aText q) 0

/-- `percent = Math.round((points / max) * 100)` as computed by both grading
loops. -/
def gradePercent (ctx : GradeCtx) (aChoice : String → Option ℕ)
    (aText : String → Option String) (qs : List Question) : Int :=
  jsRound (((sumPoints ctx aChoice aText qs : ℚ) / (sumMax qs : ℚ)) * 100)

/-- The embedded `finalExam.questions` (ids, kinds, correct indices, rubric
criteria and max scores of E1–E12). -/
def finalExamQuestions : List Question := [
  ⟨"E1", .mcq, some 1, none, 1⟩,
  ⟨"E2", .short, none, some ["AD shift right; output gap closes", "Inflation/price level effects",
    "Long-run: crowding in/out, LRAS if supply-side", "Context on slack and multipliers"], 4⟩,
  ⟨"E3", .mcq, some 1, none, 1⟩,
  ⟨"E4", .short, none, some ["Mechanism (adverse selection/moral hazard)", "Concrete example",
    "Policy and limitation"], 4⟩,
  ⟨"E5", .mcq, some 1, none, 1⟩,
  ⟨"E6", .short, none, some ["Internalization mechanism",
    "Efficiency & certainty trade-off (price vs quantity)",
    "Administrative feasibility & politics"], 4⟩,
  ⟨"E7", .mcq, some 2, none, 1⟩,
  ⟨"E8", .short, none, some ["Tradables vs non-tradables prices", "Balassa-Samuelson intuition",
    "Comparability"], 3⟩,
  ⟨"E9", .mcq, some 0, none, 1⟩,
  ⟨"E10", .short, none, some ["Transmission via lending\n", "Capital adequacy constraints",
    "Lending channel impairments"], 3⟩,
  ⟨"E11", .mcq, some 1, none, 1⟩,
  ⟨"E12", .short, none, some ["CS falls", "PS rises", "Gov revenue rectangles",
    "DWL triangles"], 4⟩]

/-- The embedded question lists of the six curriculum section tests, keyed by
section id (ids, kinds, correct indices, rubric criteria and max scores). -/
def curriculumTests : List (String × List Question) := [
  ("foundations", [
    ⟨"f1", .mcq, some 2, none, 1⟩,
    ⟨"f2", .short, none, some ["Outward shift of PPC", "Link to capital/tech improving productivity",
      "Time dimension (long run)"], 3⟩,
    ⟨"f3", .mcq, some 2, none, 1⟩,
    ⟨"f4", .short, none, some ["Price signals vs central planning",
      "Incentives for efficiency/innovation", "Equity/coordination trade-offs"], 3⟩,
    ⟨"f5", .mcq, some 1, none, 1⟩]),
  ("micro-markets", [
    ⟨"m1", .mcq, some 1, none, 1⟩,
    ⟨"m2", .short, none, some ["Substitutes increase elasticity", "Consumer switching rationale",
      "Concrete example"], 3⟩,
    ⟨"m3", .mcq, some 3, none, 1⟩,
    ⟨"m4", .short, none, some ["Time to adjust inputs", "Capacity/factor mobility",
      "Investment response"], 3⟩,
    ⟨"m5", .mcq, some 0, none, 1⟩]),
  ("micro-failure", [
    ⟨"g1", .mcq, some 1, none, 1⟩,
    ⟨"g2", .short, none, some ["MSC>MPC pre-tax", "Tax internalizes external cost (MPC→MSC)",
      "DWL reduction via moving toward social optimum"], 3⟩,
    ⟨"g3", .mcq, some 1, none, 1⟩,
    ⟨"g4", .short, none, some ["Policy named (warranty, inspection, disclosure)",
      "Mechanism explained", "Limitation/offset"], 3⟩,
    ⟨"g5", .mcq, some 1, none, 1⟩]),
  ("macro", [
    ⟨"ma1", .mcq, some 1, none, 1⟩,
    ⟨"ma2", .short, none, some ["SRAS leftward shift", "Higher price level (cost-push)",
      "Lower output (stagflation risk)"], 3⟩,
    ⟨"ma3", .mcq, some 2, none, 1⟩,
    ⟨"ma4", .short, none, some ["Liquidity trap/zero lower bound", "Weak monetary transmission",
      "High fiscal multipliers"], 3⟩,
    ⟨"ma5", .mcq, some 1, none, 1⟩]),
  ("global", [
    ⟨"gl1", .mcq, some 2, none, 1⟩,
    ⟨"gl2", .short, none, some ["Higher interest rates/capital inflows",
      "Stronger net exports/terms of trade", "Expectations/confidence"], 3⟩,
    ⟨"gl3", .mcq, some 2, none, 1⟩,
    ⟨"gl4", .short, none, some ["External debt/financing need", "Exchange rate pressure",
      "Adjustment via policy or income"], 3⟩,
    ⟨"gl5", .mcq, some 2, none, 1⟩]),
  ("development", [
    ⟨"dv1", .mcq, some 1, none, 1⟩,
    ⟨"dv2", .short, none, some ["Price level differences", "Real purchasing power",
      "Cross-country comparability"], 3⟩,
    ⟨"dv3", .mcq, some 3, none, 1⟩,
    ⟨"dv4", .short, none, some ["Specific reform (property rights, judiciary, anti-corruption)",
      "Mechanism for investment/productivity", "Feasibility or constraint"], 3⟩,
    ⟨"dv5", .mcq, some 2, none, 1⟩])]

/-- All questions the application ever grades: the six section tests followed
by the final exam. -/
def allAssessmentQuestions : List Question :=
  (curriculumTests.foldr (fun p acc => p.2 ++ acc) []) ++ finalExamQuestions

/-- The question-id → owning-section mapping hard-coded in
`generateRecommendations`, in the insertion order of its object literal. -/
def recMap : List (String × List String) := [
  ("foundations", ["E2"]),
  ("micro-markets", ["E1", "E7"]),
  ("micro-failure", ["E6", "E12", "E4"]),
  ("macro", ["E2", "E10"]),
  ("global", ["E3", "E11"]),
  ("development", ["E5", "E8"])]

/-- `finalExam.questions.find(q => q.id === id)?.maxScore || 0`. -/
def lookupMaxScore (id : String) : Int :=
  (((finalExamQuestions.find? (fun q => q.id == id)).map Question.maxScore).getD 0)

/-- `ids.reduce((s, id) => s + (perQuestion[id] || 0), 0)`. -/
def sectionGot (perQuestion : String → Option Int) (ids : List String) : Int :=
  ids.foldl (fun s id => s + ((perQuestion id).getD 0)) 0

/-- `ids.reduce((s, id) => s + (find(id)?.maxScore || 0), 0)`. -/
def sectionMax (ids : List String) : Int :=
  ids.foldl (fun s id => s + lookupMaxScore id) 0

/-- A section's recommendation score: `max > 0 ? round((got/max)*100) : 100`. -/
def sectionScore (perQuestion : String → Option Int) (ids : List String) : Int :=
  if 0 < sectionMax ids then
    jsRound (((sectionGot perQuestion ids : ℚ) / (sectionMax ids : ℚ)) * 100)
  else 100

/-- `Object.entries(scoresBySection)` in insertion order. -/
def scoresBySection (perQuestion : String → Option Int) : List (String × Int) :=
  recMap.map (fun p => (p.1, sectionScore perQuestion p.2))

/-- Insert `x` into `l` after every element whose key is `≤` its own; the
building block of the stable ascending sort below. -/
def insertAsc (f : α → Int) (x : α) : List α → List α
  | [] => [x]
  | y :: ys => if f y ≤ f x then y :: insertAsc f x ys else x :: y :: ys

/-- Stable ascending insertion sort by key `f`: the model of JavaScript
`Array.prototype.sort((a, b) => a[1] - b[1])`, which is stable. -/
def sortAsc (f : α → Int) (l : List α) : List α :=
  l.foldl (fun acc x => insertAsc f x acc) []

/-- One entry of the weak-section list: `{ sectionId, score }`. -/
structure WeakSection where
  sectionId : String
  score : Int
deriving DecidableEq

/-- The recommendation result `{ overall, weakSections }`. -/
structure Recommendations where
  overall : Int
  weakSections : List WeakSection
deriving DecidableEq

/-- `generateRecommendations({ perQuestion, percent })`: filter the per-section
scores below 70, sort ascending by score (stably), keep at most the first 3. -/
def generateRecommendations (perQuestion : String → Option Int) (percent : Int) :
    Recommendations :=
  ⟨percent,
    ((sortAsc (fun p => p.2) ((scoresBySection perQuestion).filter (fun p => p.2 < 70))).take 3).map
      (fun p => ⟨p.1, p.2⟩)⟩

/-- A per-section progress record `{ attempts, best }`. -/
structure SectionScoreRec where
  attempts : Int
  best : Int
deriving DecidableEq

/-- The exam progress record `{ attempts, best }`. -/
structure ExamRec where
  attempts : Int
  best : Int
deriving DecidableEq

/-- The persisted `Progress` entity. -/
structure Progress where
  lessonsCompleted : String → Option Bool
  sectionScores : String → Option SectionScoreRec
  exam : ExamRec

/-- `defaultProgress`: all-empty records, exam `{ attempts: 0, best: 0 }`. -/
def defaultProgress : Progress := ⟨fun _ => none, fun _ => none, ⟨0, 0⟩⟩

/-- `markLessonComplete`: set `lessonsCompleted[sectionId + "_" + lessonId]`
to `true`, leaving everything else as is (object spread with one override). -/
def markLessonComplete (sectionId lessonId : String) (p : Progress) : Progress :=
  { p with lessonsCompleted := fun k =>
      if k = sectionId ++ "_" ++ lessonId then some true else p.lessonsCompleted k }

/-- `onSectionTestSubmit`: for the submitted section, `attempts` becomes
`(existing?.attempts || 0) + 1` and `best` becomes
`Math.max(existing?.best || 0, percent)`; other sections are untouched. -/
def onSectionTestSubmit (sectionId : String) (percent : Int) (p : Progress) : Progress :=
  { p with sectionScores := fun k =>
      if k = sectionId then
        some ⟨(((p.sectionScores sectionId).map SectionScoreRec.attempts).getD 0) + 1,
              max (((p.sectionScores sectionId).map SectionScoreRec.best).getD 0) percent⟩
      else p.sectionScores k }

/-- The regex `(\d+\.?\d*)\s*\/\s*(\d+)` can only extract a non-negative
first group; a `FetchResult` is well formed when its extracted numerator
respects this. -/
def FetchResult.extractedNonneg : FetchResult → Bool
  | .ok (some (got, _)) _ => decide (0 ≤ got)
  | _ => true

/- ### Arithmetic helper lemmas about `jsRound` -/

theorem jsRound_intCast (n : ℤ) : jsRound (n : ℚ) = n := by
  unfold jsRound
  rw [Int.floor_int_add]
  norm_num

theorem jsRound_mono {x y : ℚ} (h : x ≤ y) : jsRound x ≤ jsRound y :=
  Int.floor_mono (by linarith)

theorem jsRound_zero : jsRound 0 = 0 := by
  norm_num [jsRound]

theorem jsRound_nonneg {x : ℚ} (h : 0 ≤ x) : 0 ≤ jsRound x := by
  have h0 : jsRound 0 ≤ jsRound x := jsRound_mono h
  rwa [jsRound_zero] at h0

theorem jsRound_le_intCast {x : ℚ} {n : ℤ} (h : x ≤ (n : ℚ)) : jsRound x ≤ n := by
  have h0 := jsRound_mono h
  simpa [jsRound_intCast] using h0

theorem jsRound_ratio_bounds {q : ℚ} {m : ℤ} (h0 : 0 ≤ q) (h1 : q ≤ 1) (hm : 0 < m) :
    0 ≤ jsRound (q * (m : ℚ)) ∧ jsRound (q * (m : ℚ)) ≤ m := by
  have hm' : (0 : ℚ) ≤ (m : ℚ) := by exact_mod_cast hm.le
  refine ⟨jsRound_nonneg (mul_nonneg h0 hm'), jsRound_le_intCast ?_⟩
  nlinarith

/- ### Bounds on the heuristic scorer -/

theorem scoreShortAnswer_bounds (text : String) (criteria : List String) {m : ℤ} (hm : 0 < m) :
    0 ≤ scoreShortAnswer text (some ⟨criteria, m⟩) ∧
      scoreShortAnswer text (some ⟨criteria, m⟩) ≤ m := by
  unfold scoreShortAnswer
  split
  · exact ⟨le_refl 0, hm.le⟩
  · simp only [Option.map_some', Option.getD_some]
    rw [if_neg hm.ne']
    refine jsRound_ratio_bounds ?_ (min_le_right _ _) hm
    refine le_min (div_nonneg (by positivity) ?_) zero_le_one
    split <;> positivity

theorem openAIGrade_score_bounds (hasKey : Bool) (res : FetchResult) (answer : String)
    (criteria : List String) {m : ℤ} (hm : 0 < m) (hres : res.extractedNonneg = true) :
    0 ≤ (openAIGrade hasKey res answer (some ⟨criteria, m⟩)).1 ∧
      (openAIGrade hasKey res answer (some ⟨criteria, m⟩)).1 ≤ m := by
  unfold openAIGrade
  cases hasKey with
  | false => simpa using scoreShortAnswer_bounds answer criteria hm
  | true =>
    cases res with
    | fail => simpa using scoreShortAnswer_bounds answer criteria hm
    | ok parsed content =>
      cases parsed with
      | none => simpa using scoreShortAnswer_bounds answer criteria hm
      | some gd =>
        obtain ⟨got, denom⟩ := gd
        have hgot : 0 ≤ got := by
          simpa [FetchResult.extractedNonneg] using hres
        simp only [Bool.not_true, Bool.false_eq_true, if_false, Option.map_some',
          Option.getD_some]
        rw [if_neg hm.ne']
        have hd : 0 < (if (denom : ℚ) = 0 then (m : ℚ) else (denom : ℚ)) := by
          split
          · exact_mod_cast hm
          · rename_i hne
            exact lt_of_le_of_ne (by positivity) (Ne.symm hne)
        have hm' : (0 : ℚ) ≤ (m : ℚ) := by exact_mod_cast hm.le
        constructor
        · exact le_min (jsRound_nonneg (mul_nonneg (div_nonneg hgot hd.le) hm')) hm.le
        · exact min_le_right _ _

/-- **C4**: for every rubric with a nonempty list of nonempty criteria, every
answer text and every positive `maxScore`, the rubric scorer returns an
integer score in `[0, maxScore]`. -/
theorem claim_C4_score_in_range (criteria : List String) (A : String) (m : ℤ)
    (_hcrit : criteria ≠ []) (_hne : ∀ k ∈ criteria, k ≠ "") (hm : 0 < m) :
    0 ≤ scoreShortAnswer A (some ⟨criteria, m⟩) ∧
      scoreShortAnswer A (some ⟨criteria, m⟩) ≤ m :=
  scoreShortAnswer_bounds A criteria hm

/-- Witness for C4 at a concrete rubric, answer and max score. -/
theorem claim_C4_witness :
    0 ≤ scoreShortAnswer "supply and demand" (some ⟨["demand curve"], 3⟩) ∧
      scoreShortAnswer "supply and demand" (some ⟨["demand curve"], 3⟩) ≤ 3 :=
  claim_C4_score_in_range ["demand curve"] "supply and demand" 3 (by decide)
    (by decide) (by decide)

/-- **C3, counterexample**: at `maxScore = 0` the claim fails.  With no
credential and the rubric `{criteria: ["cat"], maxScore: 0}`, the answer
`"cat"` is graded `3` (because `rubric?.maxScore || 3` replaces the falsy `0`
by `3`), which is not in `[0, maxScore] = [0, 0]`. -/
theorem claim_C3_counterexample :
    (openAIGrade false FetchResult.fail "cat" (some ⟨["cat"], 0⟩)).1 = 3 ∧
      ¬ ((openAIGrade false FetchResult.fail "cat" (some ⟨["cat"], 0⟩)).1 ≤ 0) := by
  have h : (openAIGrade false FetchResult.fail "cat" (some ⟨["cat"], 0⟩)).1
      = scoreShortAnswer "cat" (some ⟨["cat"], 0⟩) := rfl
  have hf : (["cat"].filter (fun k => criterionHit (lowerList "cat") k)) = ["cat"] := by
    decide
  have h2 : scoreShortAnswer "cat" (some ⟨["cat"], 0⟩) = 3 := by
    simp only [scoreShortAnswer, Option.map_some', Option.getD_some, hf]
    norm_num [jsRound]
    decide
  rw [h, h2]
  norm_num

/-- **C3** (amended: for `maxScore > 0`): on every path — no credential,
successful call with or without a parsable `number/number` score, request
failure — `openAIGrade` resolves to a `{score, feedback}` value with the score
an integer in `[0, maxScore]`, and the no-key path and the failure path attach
distinct fixed feedback strings. -/
theorem claim_C3_openAIGrade_boundary (hasKey : Bool) (res : FetchResult) (answer : String)
    (criteria : List String) (m : ℤ) (hm : 0 < m) (hres : res.extractedNonneg = true) :
    (0 ≤ (openAIGrade hasKey res answer (some ⟨criteria, m⟩)).1 ∧
      (openAIGrade hasKey res answer (some ⟨criteria, m⟩)).1 ≤ m) ∧
    (openAIGrade false res answer (some ⟨criteria, m⟩)).2 =
      "Heuristic feedback based on rubric coverage." ∧
    (openAIGrade true FetchResult.fail answer (some ⟨criteria, m⟩)).2 =
      "Network error: used heuristic grading." ∧
    ("Heuristic feedback based on rubric coverage." : String) ≠
      "Network error: used heuristic grading." := by
  refine ⟨openAIGrade_score_bounds hasKey res answer criteria hm hres, ?_, ?_, ?_⟩
  · simp [openAIGrade]
  · simp [openAIGrade]
  · decide

/-- Witness for C3 (amended) on a successful remote call carrying the parsed
score `2/4` against `maxScore = 4`. -/
theorem claim_C3_witness :
    (0 ≤ (openAIGrade true (FetchResult.ok (some (2, 4)) "Score: 2/4") "ans"
        (some ⟨["x"], 4⟩)).1 ∧
      (openAIGrade true (FetchResult.ok (some (2, 4)) "Score: 2/4") "ans"
        (some ⟨["x"], 4⟩)).1 ≤ 4) ∧
    (openAIGrade false (FetchResult.ok (some (2, 4)) "Score: 2/4") "ans"
        (some ⟨["x"], 4⟩)).2 = "Heuristic feedback based on rubric coverage." ∧
    (openAIGrade true FetchResult.fail "ans" (some ⟨["x"], 4⟩)).2 =
      "Network error: used heuristic grading." ∧
    ("Heuristic feedback based on rubric coverage." : String) ≠
      "Network error: used heuristic grading." :=
  claim_C3_openAIGrade_boundary true (FetchResult.ok (some (2, 4)) "Score: 2/4")
    "ans" ["x"] 4 (by decide) (by decide)

/- ### Tokenisation lemmas -/

theorem tokenizeAux_ne_nil : ∀ (l cur : List Char), ∀ p ∈ tokenizeAux l cur, p ≠ []
  | [], cur => by
    unfold tokenizeAux
    split
    · intro p hp
      simp at hp
    · rename_i hcur
      intro p hp
      simp only [List.mem_singleton] at hp
      subst hp
      simpa [List.isEmpty_iff] using hcur
  | c :: cs, cur => by
    unfold tokenizeAux
    split
    · exact tokenizeAux_ne_nil cs (c :: cur)
    · split
      · exact tokenizeAux_ne_nil cs []
      · rename_i hcur
        intro p hp
        rcases List.mem_cons.mp hp with h | h
        · subst h
          simpa [List.isEmpty_iff] using hcur
        · exact tokenizeAux_ne_nil cs [] p h

theorem tokenize_ne_nil (k : String) : ∀ p ∈ tokenize k, p ≠ [] :=
  tokenizeAux_ne_nil (lowerList k) []

theorem tokenizeAux_eq_nil_of_no_alpha : ∀ (l : List Char),
    (∀ c ∈ l, isLowerAlpha c = false) → tokenizeAux l [] = []
  | [], _ => rfl
  | c :: cs, h => by
    unfold tokenizeAux
    rw [if_neg (by simp [h c (List.mem_cons_self c cs)])]
    simp only [List.isEmpty_nil, if_true]
    exact tokenizeAux_eq_nil_of_no_alpha cs (fun d hd => h d (List.mem_cons_of_mem c hd))

/-- A criterion without letters tokenises to the empty list. -/
theorem tokenize_eq_nil_of_no_alpha (k : String)
    (h : ∀ c ∈ lowerList k, isLowerAlpha c = false) : tokenize k = [] :=
  tokenizeAux_eq_nil_of_no_alpha (lowerList k) h

/-- **C10**: a rubric criterion containing no alphabetic characters (no
character that lowercases into `[a-z]`) tokenises to the empty list and is
never hit by any answer text; consequently a rubric whose criteria are all
letter-free scores 0 for every answer text and every `maxScore`. -/
theorem claim_C10_letter_free_criteria :
    (∀ k : String, (∀ c ∈ lowerList k, isLowerAlpha c = false) →
      tokenize k = [] ∧ ∀ t : List Char, criterionHit t k = false) ∧
    (∀ (criteria : List String) (A : String) (m : ℤ),
      (∀ k ∈ criteria, ∀ c ∈ lowerList k, isLowerAlpha c = false) →
      scoreShortAnswer A (some ⟨criteria, m⟩) = 0) := by
  constructor
  · intro k hk
    have ht : tokenize k = [] := tokenize_eq_nil_of_no_alpha k hk
    exact ⟨ht, fun t => by simp [criterionHit, ht]⟩
  · intro criteria A m h
    unfold scoreShortAnswer
    split
    · rfl
    · have hf : criteria.filter (fun k => criterionHit (lowerList A) k) = [] := by
        rw [List.filter_eq_nil_iff]
        intro k hk
        simp [criterionHit, tokenize_eq_nil_of_no_alpha k (h k hk)]
      simp only [Option.map_some', Option.getD_some, hf, List.length_nil, Nat.cast_zero,
        Int.cast_zero, zero_div]
      norm_num [jsRound_zero]

/-- Witness for C10: the letter-free criteria `"123"` and `"?!"` produce no
tokens and force score 0. -/
theorem claim_C10_witness :
    tokenize "123" = [] ∧ scoreShortAnswer "abc" (some ⟨["123", "?!"], 5⟩) = 0 :=
  ⟨(claim_C10_letter_free_criteria.1 "123" (by decide)).1,
    claim_C10_letter_free_criteria.2 ["123", "?!"] "abc" 5 (by decide)⟩

/-- **C5, counterexample**: for the rubric `{criteria: ["123"], maxScore: 3}`
every token of every criterion vacuously appears in the answer `"anything"`
(the letter-free criterion `"123"` has no tokens at all), yet the score is 0,
not `maxScore = 3`. -/
theorem claim_C5_counterexample :
    (["123"].all (fun k => (tokenize k).all
      (fun p => containsSub p (lowerList "anything")))) = true ∧
      scoreShortAnswer "anything" (some ⟨["123"], 3⟩) ≠ 3 := by
  refine ⟨by decide, ?_⟩
  have hf : (["123"].filter (fun k => criterionHit (lowerList "anything") k)) = [] := by
    decide
  simp only [scoreShortAnswer, Option.map_some', Option.getD_some, hf, List.length_nil,
    Nat.cast_zero, Int.cast_zero, zero_div]
  norm_num [jsRound_zero]

/-- **C5** (amended: the criteria list is nonempty, every criterion has at
least one token, and `maxScore` is positive): if every token of every
criterion of the rubric appears, lowercased, as a substring of the answer,
the score equals `maxScore`. -/
theorem claim_C5_full_marks (criteria : List String) (A : String) (m : ℤ)
    (hm : 0 < m) (hcrit : criteria ≠ [])
    (htok : ∀ k ∈ criteria, tokenize k ≠ [])
    (hall : ∀ k ∈ criteria, ∀ p ∈ tokenize k, containsSub p (lowerList A) = true) :
    scoreShortAnswer A (some ⟨criteria, m⟩) = m := by
  have hA : ¬ (A = "") := by
    intro hA0
    obtain ⟨k0, hk0⟩ := List.exists_mem_of_ne_nil criteria hcrit
    obtain ⟨p0, hp0⟩ := List.exists_mem_of_ne_nil _ (htok k0 hk0)
    have hcon := hall k0 hk0 p0 hp0
    have hp0ne := tokenize_ne_nil k0 p0 hp0
    subst hA0
    have hlow : lowerList "" = [] := rfl
    rw [hlow] at hcon
    cases p0 with
    | nil => exact hp0ne rfl
    | cons c cs => simp [containsSub] at hcon
  have hf : criteria.filter (fun k => criterionHit (lowerList A) k) = criteria := by
    apply List.filter_eq_self.mpr
    intro k hk
    obtain ⟨p, hp⟩ := List.exists_mem_of_ne_nil _ (htok k hk)
    simp only [criterionHit]
    exact List.any_eq_true.mpr ⟨p, hp, hall k hk p hp⟩
  have hlen0 : ¬ (criteria.length = 0) := fun h0 => hcrit (List.length_eq_zero.mp h0)
  unfold scoreShortAnswer
  rw [if_neg hA]
  simp only [Option.map_some', Option.getD_some, hf]
  rw [if_neg hlen0, if_neg hm.ne']
  have hlen : (((criteria.length : Int) : ℚ)) ≠ 0 := by
    have : (0 : ℕ) < criteria.length := List.length_pos.mpr hcrit
    push_cast
    exact_mod_cast this.ne'
  rw [div_self hlen, min_self, one_mul, jsRound_intCast]

/-- Witness for C5 (amended): a two-criterion rubric whose tokens all occur in
the answer scores the full 3 marks. -/
theorem claim_C5_witness :
    scoreShortAnswer "the ppc shifts outward as productivity improves"
      (some ⟨["PPC outward", "productivity"], 3⟩) = 3 :=
  claim_C5_full_marks ["PPC outward", "productivity"]
    "the ppc shifts outward as productivity improves" 3 (by decide) (by decide)
    (by decide) (by decide)

/-- **C6**: every multiple-choice question of the six section tests and the
final exam carries a correct index and a positive max score, and the grading
loops award it exactly `maxScore` when the recorded answer is strictly equal
to the correct index and 0 otherwise; an unanswered question (`none`) is not
equal to `some` index and therefore awards 0. -/
theorem claim_C6_mcq_points :
    ∀ q ∈ allAssessmentQuestions, q.type = QType.mcq →
      ∃ a, q.answer = some a ∧ 0 < q.maxScore ∧
        ∀ (ctx : GradeCtx) (aChoice : String → Option ℕ) (aText : String → Option String),
          questionPoints ctx aChoice aText q =
            (if aChoice q.id = some a then q.maxScore else 0) := by
  have hdata : ∀ q ∈ allAssessmentQuestions, q.type = QType.mcq →
      q.answer.isSome ∧ 0 < q.maxScore := by decide
  intro q hq ht
  obtain ⟨hsome, hmax⟩ := hdata q hq ht
  obtain ⟨a, ha⟩ := Option.isSome_iff_exists.mp hsome
  refine ⟨a, ha, hmax, ?_⟩
  intro ctx aChoice aText
  simp [questionPoints, ht, ha]

/-- Witness for C6 at final-exam question E1, answered correctly. -/
theorem claim_C6_witness :
    questionPoints ⟨false, fun _ => FetchResult.fail⟩ (fun _ => some 1) (fun _ => none)
      ⟨"E1", QType.mcq, some 1, none, 1⟩ = 1 := by
  obtain ⟨a, ha, hmax, h⟩ := claim_C6_mcq_points ⟨"E1", QType.mcq, some 1, none, 1⟩
    (by decide) rfl
  obtain rfl : (1 : ℕ) = a := Option.some.inj ha
  rw [h ⟨false, fun _ => FetchResult.fail⟩ (fun _ => some 1) (fun _ => none)]
  simp

/-- The answer map selecting the correct option of every final-exam MCQ and
leaving every other question untouched. -/
def examAllCorrectChoices : String → Option ℕ := fun id =>
  if id = "E1" then some 1
  else if id = "E3" then some 1
  else if id = "E5" then some 1
  else if id = "E7" then some 2
  else if id = "E9" then some 0
  else if id = "E11" then some 1
  else none

/-- The grading environment with no API key configured. -/
def noKeyCtx : GradeCtx := ⟨false, fun _ => FetchResult.fail⟩

/-- **C1, counterexample**: grading the embedded final exam with every MCQ
answered correctly and every short answer blank (hence scored 0 by the no-key
heuristic) yields an overall percent of 21, not 25, because the short answers
total 22 points and the exam 28, not 18 and 24. -/
theorem claim_C1_counterexample :
    gradePercent noKeyCtx examAllCorrectChoices (fun _ => none) finalExamQuestions = 21 ∧
      (21 : ℤ) ≠ 25 ∧ sumMax finalExamQuestions ≠ 24 := by
  have hp : sumPoints noKeyCtx examAllCorrectChoices (fun _ => none) finalExamQuestions = 6 := by
    decide
  have hm : sumMax finalExamQuestions = 28 := by decide
  refine ⟨?_, by decide, by rw [hm]; decide⟩
  unfold gradePercent
  rw [hp, hm]
  push_cast
  norm_num [jsRound]

/-- **C1** (amended): with every MCQ answered correctly (6 points) and every
short answer awarded 0, the overall percent is `round(100 × 6/28) = 21`,
from a 28-point total: 6 MCQ points plus 22 short-answer points. -/
theorem claim_C1_final_exam_percent :
    gradePercent noKeyCtx examAllCorrectChoices (fun _ => none) finalExamQuestions = 21 ∧
    jsRound (100 * (6 : ℚ) / 28) = 21 ∧
    sumPoints noKeyCtx examAllCorrectChoices (fun _ => none) finalExamQuestions = 6 ∧
    sumMax finalExamQuestions = 28 ∧
    (∀ q ∈ finalExamQuestions, q.type = QType.short →
      questionPoints noKeyCtx examAllCorrectChoices (fun _ => none) q = 0) := by
  have hp : sumPoints noKeyCtx examAllCorrectChoices (fun _ => none) finalExamQuestions = 6 := by
    decide
  have hm : sumMax finalExamQuestions = 28 := by decide
  refine ⟨?_, ?_, hp, hm, by decide⟩
  · unfold gradePercent
    rw [hp, hm]
    push_cast
    norm_num [jsRound]
  · norm_num [jsRound]

/-- Witness for C1 (amended) at the short-answer question E2: blank answer,
no key, 0 points awarded. -/
theorem claim_C1_witness :
    questionPoints noKeyCtx examAllCorrectChoices (fun _ => none)
      ⟨"E2", QType.short, none, some ["AD shift right; output gap closes",
        "Inflation/price level effects", "Long-run: crowding in/out, LRAS if supply-side",
        "Context on slack and multipliers"], 4⟩ = 0 :=
  claim_C1_final_exam_percent.2.2.2.2
    ⟨"E2", QType.short, none, some ["AD shift right; output gap closes",
      "Inflation/price level effects", "Long-run: crowding in/out, LRAS if supply-side",
      "Context on slack and multipliers"], 4⟩ (by decide) rfl

/-- **C2, counterexample**: the exam question id `"E2"` appears in the mapped
question-id lists of two sections, `foundations` and `macro`, so the
recommendation mapping is not many-to-one as claimed. -/
theorem claim_C2_counterexample :
    ("E2" ∈ finalExamQuestions.map Question.id) ∧
      (recMap.filter (fun p => p.2.contains "E2")).length = 2 ∧
      ¬ ((recMap.filter (fun p => p.2.contains "E2")).length ≤ 1) := by
  decide

/-- **C2** (amended): with the single exception of `"E2"` (owned by both
`foundations` and `macro`), every final-exam question id appears in the mapped
question-id list of at most one section. -/
theorem claim_C2_many_to_one_except_E2 :
    ∀ qid ∈ finalExamQuestions.map Question.id, qid ≠ "E2" →
      (recMap.filter (fun p => p.2.contains qid)).length ≤ 1 := by
  decide

/-- Witness for C2 (amended) at question id `"E1"`. -/
theorem claim_C2_witness :
    (recMap.filter (fun p => p.2.contains "E1")).length ≤ 1 :=
  claim_C2_many_to_one_except_E2 "E1" (by decide) (by decide)

/-- **C8**: submitting a section-test result increments that section's attempt
counter by exactly 1 (a missing record counting as 0 attempts) and max-merges
the submitted percent into the best score, so best never decreases; submitting
the percents 40, 90, 60 in sequence from the empty record yields best 90 and
attempts 3. -/
theorem claim_C8_record_section_test :
    (∀ (p : Progress) (s : String) (percent : ℤ),
      (onSectionTestSubmit s percent p).sectionScores s =
        some ⟨(((p.sectionScores s).map SectionScoreRec.attempts).getD 0) + 1,
              max (((p.sectionScores s).map SectionScoreRec.best).getD 0) percent⟩ ∧
      (((p.sectionScores s).map SectionScoreRec.best).getD 0) ≤
        ((((onSectionTestSubmit s percent p).sectionScores s).map
          SectionScoreRec.best).getD 0)) ∧
    (([40, 90, 60].foldl (fun p percent => onSectionTestSubmit "foundations" percent p)
        defaultProgress).sectionScores "foundations" = some ⟨3, 90⟩) := by
  refine ⟨fun p s percent => ⟨by simp [onSectionTestSubmit], ?_⟩, by decide⟩
  simp only [onSectionTestSubmit, if_pos rfl, Option.map_some', Option.getD_some]
  exact le_max_left _ _

/-- **C9**: recording a lesson completion sets exactly the `lessonsCompleted`
entry for the key `sectionId_lessonId` to `true`; every other entry, the
section scores and the exam record are unchanged, and the operation is
idempotent. -/
theorem claim_C9_mark_lesson_frame :
    ∀ (p : Progress) (s l : String),
      (markLessonComplete s l p).lessonsCompleted (s ++ "_" ++ l) = some true ∧
      (∀ k, k ≠ s ++ "_" ++ l →
        (markLessonComplete s l p).lessonsCompleted k = p.lessonsCompleted k) ∧
      (markLessonComplete s l p).sectionScores = p.sectionScores ∧
      (markLessonComplete s l p).exam = p.exam ∧
      markLessonComplete s l (markLessonComplete s l p) = markLessonComplete s l p := by
  intro p s l
  refine ⟨by simp [markLessonComplete], fun k hk => by simp [markLessonComplete, hk],
    rfl, rfl, ?_⟩
  unfold markLessonComplete
  congr 1
  funext k
  by_cases hk : k = s ++ "_" ++ l <;> simp [hk]

/-- Witness for C9: marking lesson `"b"` of section `"a"` complete sets key
`"a_b"` and leaves the unrelated key `"x"` untouched. -/
theorem claim_C9_witness :
    (markLessonComplete "a" "b" defaultProgress).lessonsCompleted "a_b" = some true ∧
      (markLessonComplete "a" "b" defaultProgress).lessonsCompleted "x" =
        defaultProgress.lessonsCompleted "x" :=
  ⟨(claim_C9_mark_lesson_frame defaultProgress "a" "b").1,
    (claim_C9_mark_lesson_frame defaultProgress "a" "b").2.1 "x" (by decide)⟩

/- ### Stable-sort lemmas for the recommendation engine -/

theorem mem_insertAsc {α : Type*} (f : α → ℤ) (x z : α) :
    ∀ l : List α, z ∈ insertAsc f x l ↔ z = x ∨ z ∈ l
  | [] => by simp [insertAsc]
  | y :: ys => by
    unfold insertAsc
    split
    · simp only [List.mem_cons, mem_insertAsc f x z ys]
      tauto
    · simp only [List.mem_cons]
      try tauto

/-- The ordering a stable ascending sort by key `f` establishes, given that
`g` ranks the elements by original position: strictly smaller key, or equal
keys in original order. -/
def lexLt {α : Type*} (f : α → ℤ) (g : α → ℕ) (a b : α) : Prop :=
  f a < f b ∨ (f a = f b ∧ g a < g b)

theorem pairwise_insertAsc {α : Type*} (f : α → ℤ) (g : α → ℕ) (x : α) :
    ∀ l : List α, l.Pairwise (lexLt f g) → (∀ y ∈ l, g y < g x) →
      (insertAsc f x l).Pairwise (lexLt f g)
  | [], _, _ => by simp [insertAsc]
  | y :: ys, hp, hg => by
    unfold insertAsc
    rcases List.pairwise_cons.mp hp with ⟨hy, hys⟩
    split
    · rename_i hle
      refine List.pairwise_cons.mpr ⟨?_, pairwise_insertAsc f g x ys hys
        (fun z hz => hg z (List.mem_cons_of_mem y hz))⟩
      intro z hz
      rcases (mem_insertAsc f x z ys).mp hz with rfl | hz'
      · rcases lt_or_eq_of_le hle with h | h
        · exact Or.inl h
        · exact Or.inr ⟨h, hg y (List.mem_cons_self y ys)⟩
      · exact hy z hz'
    · rename_i hgt
      rw [not_le] at hgt
      refine List.pairwise_cons.mpr ⟨?_, hp⟩
      intro z hz
      rcases List.mem_cons.mp hz with rfl | hz'
      · exact Or.inl hgt
      · rcases hy z hz' with h | ⟨h, _⟩
        · exact Or.inl (hgt.trans h)
        · exact Or.inl (lt_of_lt_of_le hgt h.le)

theorem pairwise_sortAsc_aux {α : Type*} (f : α → ℤ) (g : α → ℕ) :
    ∀ (l acc : List α), acc.Pairwise (lexLt f g) →
      (∀ y ∈ acc, ∀ x ∈ l, g y < g x) →
      l.Pairwise (fun a b => g a < g b) →
      (l.foldl (fun acc x => insertAsc f x acc) acc).Pairwise (lexLt f g)
  | [], acc, hacc, _, _ => hacc
  | x :: xs, acc, hacc, hcross, hl => by
    simp only [List.foldl_cons]
    rcases List.pairwise_cons.mp hl with ⟨hx, hxs⟩
    refine pairwise_sortAsc_aux f g xs (insertAsc f x acc) ?_ ?_ hxs
    · exact pairwise_insertAsc f g x acc hacc
        (fun y hy => hcross y hy x (List.mem_cons_self x xs))
    · intro y hy z hz
      rcases (mem_insertAsc f x y acc).mp hy with rfl | hy'
      · exact hx z hz
      · exact hcross y hy' z (List.mem_cons_of_mem x hz)

theorem pairwise_sortAsc {α : Type*} (f : α → ℤ) (g : α → ℕ) (l : List α)
    (hl : l.Pairwise (fun a b => g a < g b)) :
    (sortAsc f l).Pairwise (lexLt f g) :=
  pairwise_sortAsc_aux f g l [] List.Pairwise.nil (by simp) hl

theorem mem_sortAsc_aux {α : Type*} (f : α → ℤ) (z : α) :
    ∀ (l acc : List α),
      z ∈ l.foldl (fun acc x => insertAsc f x acc) acc ↔ z ∈ acc ∨ z ∈ l
  | [], acc => by simp
  | x :: xs, acc => by
    simp only [List.foldl_cons]
    rw [mem_sortAsc_aux f z xs (insertAsc f x acc), mem_insertAsc f x z acc]
    simp only [List.mem_cons]
    tauto

theorem mem_sortAsc {α : Type*} (f : α → ℤ) (z : α) (l : List α) :
    z ∈ sortAsc f l ↔ z ∈ l := by
  unfold sortAsc
  rw [mem_sortAsc_aux]
  simp

/-- The position of a section id in the insertion order of the recommendation
mapping. -/
def sectionRank (s : String) : ℕ := (recMap.map Prod.fst).indexOf s

/-- **C7**: for every per-question result map, the returned weak-section list
contains only sections scoring below 70, has at most 3 entries, has
non-decreasing scores in list order, and breaks score ties by the sections'
original order in the mapping. -/
theorem claim_C7_weak_sections (perQuestion : String → Option ℤ) (percent : ℤ) :
    (∀ w ∈ (generateRecommendations perQuestion percent).weakSections, w.score < 70) ∧
    (generateRecommendations perQuestion percent).weakSections.length ≤ 3 ∧
    (generateRecommendations perQuestion percent).weakSections.Pairwise
      (fun a b => a.score ≤ b.score) ∧
    (∀ a b, [a, b].Sublist (generateRecommendations perQuestion percent).weakSections →
      a.score = b.score → sectionRank a.sectionId < sectionRank b.sectionId) := by
  have hentries : (scoresBySection perQuestion).Pairwise
      (fun a b => sectionRank a.1 < sectionRank b.1) := by
    have hrec : recMap.Pairwise
        (fun a b : String × List String => sectionRank a.1 < sectionRank b.1) := by decide
    unfold scoresBySection
    exact List.pairwise_map.mpr hrec
  have hfilt : ((scoresBySection perQuestion).filter (fun p => p.2 < 70)).Pairwise
      (fun a b => sectionRank a.1 < sectionRank b.1) :=
    hentries.sublist (List.filter_sublist _)
  have hsorted := pairwise_sortAsc (fun p : String × ℤ => p.2)
    (fun p : String × ℤ => sectionRank p.1) _ hfilt
  have htaken := hsorted.sublist (List.take_sublist 3 _)
  have hw : (generateRecommendations perQuestion percent).weakSections.Pairwise
      (lexLt WeakSection.score (fun w => sectionRank w.sectionId)) := by
    unfold generateRecommendations
    rw [List.pairwise_map]
    exact htaken
  refine ⟨?_, ?_, ?_, ?_⟩
  · intro w hwmem
    unfold generateRecommendations at hwmem
    rcases List.mem_map.mp hwmem with ⟨p, hp, rfl⟩
    have hp' := (mem_sortAsc (fun q : String × ℤ => q.2) p
      ((scoresBySection perQuestion).filter (fun q => q.2 < 70))).mp
      (List.mem_of_mem_take hp)
    have := List.of_mem_filter hp'
    simpa using this
  · unfold generateRecommendations
    rw [List.length_map]
    exact le_trans (List.length_take_le 3 _) (le_refl 3)
  · exact hw.imp (fun h => by
      rcases h with h | ⟨h, _⟩
      · exact h.le
      · exact h.le)
  · intro a b hs heq
    rcases List.pairwise_iff_forall_sublist.mp hw hs with h | ⟨-, h⟩
    · rw [heq] at h
      exact absurd h (lt_irrefl _)
    · exact h

/-- A section whose mapped questions got 0 points but have a positive maximum
scores 0. -/
theorem sectionScore_of_got_zero (pq : String → Option ℤ) (ids : List String)
    (hg : sectionGot pq ids = 0) (hm : 0 < sectionMax ids) : sectionScore pq ids = 0 := by
  unfold sectionScore
  rw [if_pos hm, hg]
  simp [jsRound_zero]

/-- Witness for C7: with all per-question results absent, the weak sections are
the first three sections of the mapping in original order (all tied at 0), and
the tie-break conclusion is obtained from the claim theorem on the first two. -/
theorem claim_C7_witness :
    sectionRank "foundations" < sectionRank "micro-markets" := by
  have h := (claim_C7_weak_sections (fun _ => none) 0).2.2.2
  have h1 : sectionScore (fun _ => none) ["E2"] = 0 :=
    sectionScore_of_got_zero _ _ (by decide) (by decide)
  have h2 : sectionScore (fun _ => none) ["E1", "E7"] = 0 :=
    sectionScore_of_got_zero _ _ (by decide) (by decide)
  have h3 : sectionScore (fun _ => none) ["E6", "E12", "E4"] = 0 :=
    sectionScore_of_got_zero _ _ (by decide) (by decide)
  have h4 : sectionScore (fun _ => none) ["E2", "E10"] = 0 :=
    sectionScore_of_got_zero _ _ (by decide) (by decide)
  have h5 : sectionScore (fun _ => none) ["E3", "E11"] = 0 :=
    sectionScore_of_got_zero _ _ (by decide) (by decide)
  have h6 : sectionScore (fun _ => none) ["E5", "E8"] = 0 :=
    sectionScore_of_got_zero _ _ (by decide) (by decide)
  have hws : (generateRecommendations (fun _ => none) 0).weakSections =
      [⟨"foundations", 0⟩, ⟨"micro-markets", 0⟩, ⟨"micro-failure", 0⟩] := by
    unfold generateRecommendations scoresBySection recMap
    simp only [List.map_cons, List.map_nil, h1, h2, h3, h4, h5, h6]
    decide
  refine h ⟨"foundations", 0⟩ ⟨"micro-markets", 0⟩ ?_ rfl
  rw [hws]
  exact List.Sublist.cons₂ _ (List.Sublist.cons₂ _ (List.nil_sublist _))

end IbEcon
